import Mathlib

/-
  Shallow embedding of the workflow orchestration engine in
  src/intelligent_research_orchestrator_tavily.py (class ResearchOrchestrator).

  Modelling decisions:
  * The language-generation service (Ollama) and the structured-text
    decoder (the json library) are external collaborators.  A reply is
    modelled as its raw text together with the outcome of running the
    fence-stripping plus structured decode on it: `none` means the decode
    raised, `some v` gives the decoded value.  Decoded values are `PyVal`
    (null, booleans, rationals for numbers, strings, arrays, objects);
    objects produced by the decoder have unique keys, so association-list
    lookup is exact.
  * The web-search service (Tavily) is an oracle mapping each per-query
    call to either `none` (the call raised, source lines 242-243) or a
    list of result dictionaries.
  * Wall-clock timestamps are an oracle `Nat -> String` indexed by the
    number of stage executions so far.
  * The LangGraph driver built in _build_graph (lines 80-129) is modelled
    as sequential in-place stage application following its node graph and
    conditional edges, per the stage-execution contract of the spec.
  * Python numerics are modelled as rationals; Python booleans are
    numbers 0 and 1 where a numeric context demands it.
-/

/-- A decoded Python/JSON value as handled by the orchestrator. -/
inductive PyVal where
  | null : PyVal
  | bool : Bool → PyVal
  | num : Rat → PyVal
  | str : String → PyVal
  | arr : List PyVal → PyVal
  | obj : List (String × PyVal) → PyVal

/-- A Python dictionary with string keys, as stored in the run state. -/
abbrev PyDict := List (String × PyVal)

/-- Python truthiness, as used by `if needs_more and ...` (line 348). -/
def truthy : PyVal → Bool
  | .null => false
  | .bool b => b
  | .num r => r != 0
  | .str s => s != ""
  | .arr l => !l.isEmpty
  | .obj l => !l.isEmpty

/-- The numeric reading of a value, where Python order comparison with an
int succeeds: numbers compare as themselves, booleans as 0 or 1, anything
else raises TypeError (`none`). -/
def asNum : PyVal → Option Rat
  | .num r => some r
  | .bool b => some (if b then 1 else 0)
  | _ => none

/-- The extracted value read as a list of string queries, the only shape
on which the model executes the search loop.  A non-array value other
than a string makes the Python slice of the extracted value raise
TypeError; arrays holding non-string elements, and plain strings (which
Python would slice and then iterate character by character), are left
outside the modelled fragment and also map to `none`. -/
def asQueryList : PyVal → Option (List String)
  | .arr xs => xs.mapM (fun v => match v with | .str s => some s | _ => none)
  | _ => none

/-- One reply of the language-generation service: the raw text plus the
outcome of the fence-strip-and-decode applied to it (`none` = decode
raised). -/
structure LlmReply where
  content : String
  parsed : Option PyVal

/-- Python `len(text.split())`: whitespace-run splitting, empty pieces
dropped (writer message word_count, line 445). -/
def pyWordCount (s : String) : Nat :=
  ((s.toList.splitOnP Char.isWhitespace).filter (fun w => !w.isEmpty)).length

/-- The ResearchState TypedDict (lines 30-41). -/
structure ResearchState where
  query : String
  search_results : List PyDict
  analyzed_data : PyDict
  fact_checks : List PyDict
  report : String
  visual_summary : PyDict
  messages : List PyDict
  next_agent : String
  iteration : Nat
  confidence_score : PyVal

/-- The initial state built by research() (lines 515-526). -/
def initState (query : String) : ResearchState :=
  { query := query
    search_results := []
    analyzed_data := []
    fact_checks := []
    report := ""
    visual_summary := []
    messages := []
    next_agent := "planner"
    iteration := 0
    confidence_score := .num 0 }

/-- planner_agent (lines 135-164): appends a planner message, sets
next_agent to researcher and iteration to 0. -/
def plannerStage (reply : LlmReply) (ts : String) (s : ResearchState) :
    ResearchState :=
  { s with
    messages := s.messages ++
      [[("agent", .str "planner"), ("content", .str reply.content),
        ("timestamp", .str ts)]]
    next_agent := "researcher"
    iteration := 0 }

/-- Whether Python len() applies to a decoded value: strings, arrays and
objects have a length; numbers, booleans and null raise TypeError. -/
def hasLen : PyVal → Bool
  | .str _ => true
  | .arr _ => true
  | .obj _ => true
  | _ => false

/-- Whether the Python slice v[:100] applies to a decoded value: strings
and arrays slice; numbers, booleans, null and objects raise TypeError. -/
def pySliceable : PyVal → Bool
  | .str _ => true
  | .arr _ => true
  | _ => false

/-- Query extraction of researcher_agent (lines 191-208).  A decode
failure, or a decoded value without a .get method, falls back to the
single original query.  For a decoded object, the search_queries field
(default empty list) and the reasoning field (default empty string) are
read; the progress prints at lines 204-205 still sit inside the try
clause, so when len of the search_queries value or the slice of the
reasoning value raises, the except clause again falls back to the single
original query; otherwise the search_queries value is used verbatim. -/
def extractQueries (origQuery : String) : Option PyVal → PyVal
  | some (.obj fields) =>
      let sq := (List.lookup "search_queries" fields).getD (.arr [])
      let rs := (List.lookup "reasoning" fields).getD (.str "")
      if hasLen sq && pySliceable rs then sq
      else .arr [.str origQuery]
  | some .null => .arr [.str origQuery]
  | some (.bool _) => .arr [.str origQuery]
  | some (.num _) => .arr [.str origQuery]
  | some (.str _) => .arr [.str origQuery]
  | some (.arr _) => .arr [.str origQuery]
  | none => .arr [.str origQuery]

/-- One Search Result built from a Tavily result dictionary
(lines 230-238). -/
def tavilyRecord (query : String) (r : PyDict) (ts : String) : PyDict :=
  [("query", .str query),
   ("title", (List.lookup "title" r).getD (.str "")),
   ("url", (List.lookup "url" r).getD (.str "")),
   ("content", (List.lookup "content" r).getD (.str "")),
   ("score", (List.lookup "score" r).getD (.num 0)),
   ("published_date", (List.lookup "published_date" r).getD (.str "")),
   ("timestamp", .str ts)]

/-- One mock Search Result (lines 249-256), used when no Tavily client is
configured. -/
def mockRecord (query : String) (iteration : Nat) (ts : String) : PyDict :=
  [("query", .str query),
   ("title", .str ("Mock Result for: " ++ query)),
   ("content", .str "This is mock content. Please configure Tavily API key for real search results."),
   ("url", .str ("https://example.com/mock-" ++ toString iteration)),
   ("score", .num (4 / 5)),
   ("timestamp", .str ts)]

/-- The results gathered by the Tavily branch (lines 213-243): at most 3
queries, each search call either raises (skipped) or contributes one
record per returned result. -/
def tavilyResults (searchFn : Nat → String → Option (List PyDict))
    (queries : List String) (ts : String) : List PyDict :=
  (queries.take 3).enum.flatMap fun p =>
    match searchFn p.1 p.2 with
    | none => []
    | some rs => rs.map fun r => tavilyRecord p.2 r ts

/-- The results gathered by the mock branch (lines 244-257): exactly one
mock record per query among the first 3. -/
def mockResults (queries : List String) (iteration : Nat) (ts : String) :
    List PyDict :=
  (queries.take 3).map fun q => mockRecord q iteration ts

/-- researcher_agent (lines 166-273): extract queries, gather results on
the configured or mock path, extend search_results, append a researcher
message, increment iteration by 1.  `none` marks inputs on which the
Python loop over the extracted value raises. -/
def researcherStage (cfg : Bool) (reply : LlmReply)
    (searchFn : Nat → String → Option (List PyDict)) (ts : String)
    (s : ResearchState) : Option ResearchState :=
  match asQueryList (extractQueries s.query reply.parsed) with
  | none => none
  | some qs =>
    let allResults :=
      if cfg then tavilyResults searchFn qs ts
      else mockResults qs s.iteration ts
    some { s with
      search_results := s.search_results ++ allResults
      messages := s.messages ++
        [[("agent", .str "researcher"), ("content", .str reply.content),
          ("results_found", .num allResults.length),
          ("timestamp", .str ts)]]
      iteration := s.iteration + 1 }

/-- The confidence / needs_more_research extraction of analyzer_agent
(lines 317-331): a decode failure or a value without .get degrades to
(75, False); a decoded object yields its fields, confidence defaulting to
70 and needs_more_research to False. -/
def analyzerParse : Option PyVal → PyVal × PyVal
  | some (.obj fields) =>
      ((List.lookup "confidence" fields).getD (.num 70),
       (List.lookup "needs_more_research" fields).getD (.bool false))
  | _ => (.num 75, .bool false)

/-- analyzer_agent (lines 275-358): store the analysis and confidence,
append an analyzer message, then compute next_agent by the precedence of
lines 347-355.  When the chain must compare a non-numeric confidence with
70, Python raises TypeError: modelled as `none`. -/
def analyzerStage (reply : LlmReply) (ts : String) (s : ResearchState) :
    Option ResearchState :=
  let conf : PyVal := (analyzerParse reply.parsed).1
  let needs : PyVal := (analyzerParse reply.parsed).2
  let s' : ResearchState := { s with
    analyzed_data :=
      [("analysis", .str reply.content), ("confidence", conf),
       ("timestamp", .str ts)]
    confidence_score := conf
    messages := s.messages ++
      [[("agent", .str "analyzer"), ("content", .str reply.content),
        ("timestamp", .str ts)]] }
  if truthy needs ∧ s.iteration < 3 then
    some { s' with next_agent := "more_research" }
  else
    match asNum conf with
    | none => none
    | some c =>
      if c < 70 ∧ s.iteration < 3 then
        some { s' with next_agent := "more_research" }
      else if 80 ≤ c then
        some { s' with next_agent := "write" }
      else
        some { s' with next_agent := "fact_check" }

/-- fact_checker_agent (lines 360-397): sets fact_checks to the single
new record and appends a fact_checker message. -/
def factCheckerStage (reply : LlmReply) (ts : String) (s : ResearchState) :
    ResearchState :=
  { s with
    fact_checks := [[("checks", .str reply.content), ("timestamp", .str ts)]]
    messages := s.messages ++
      [[("agent", .str "fact_checker"), ("content", .str reply.content),
        ("timestamp", .str ts)]] }

/-- writer_agent (lines 399-450): sets report to the reply text verbatim
and appends a writer message with a word_count field. -/
def writerStage (reply : LlmReply) (ts : String) (s : ResearchState) :
    ResearchState :=
  { s with
    report := reply.content
    messages := s.messages ++
      [[("agent", .str "writer"), ("content", .str reply.content),
        ("word_count", .num (pyWordCount reply.content)),
        ("timestamp", .str ts)]] }

/-- visualizer_agent (lines 452-489): stores the visual summary and
appends a visualizer message. -/
def visualizerStage (reply : LlmReply) (ts : String) (s : ResearchState) :
    ResearchState :=
  { s with
    visual_summary := [("data", .str reply.content), ("timestamp", .str ts)]
    messages := s.messages ++
      [[("agent", .str "visualizer"), ("content", .str reply.content),
        ("timestamp", .str ts)]] }

/-- route_after_planning (lines 495-497). -/
def route_after_planning (_ : ResearchState) : String := "research"

/-- route_after_analysis (lines 499-501): reads the routing hint the
analyzer stored (the field is always populated in the state record). -/
def route_after_analysis (s : ResearchState) : String := s.next_agent

/-- The nodes of the graph built in _build_graph (lines 80-129), plus a
terminal marker for END. -/
inductive Node where
  | planner | researcher | analyzer | factChecker | writer | visualizer
  | terminal

/-- The external collaborators of one run: the generation service indexed
by invocation count, the web-search configuration flag and per-call search
oracle, and the wall clock. -/
structure Oracle where
  llm : Nat → LlmReply
  tavilyConfigured : Bool
  search : Nat → Nat → String → Option (List PyDict)
  ts : Nat → String

/-- The result of driving the graph: a final state, an uncaught exception
(the run state built so far is discarded, spec section 7), or exhausted fuel. -/
inductive Outcome where
  | done : ResearchState → Outcome
  | raised : Outcome
  | fuelOut : Outcome

/-- The engine loop: invoke the stage of the current node, follow the fixed
edge or evaluate the router, repeat until END.  Returns the outcome
together with the state at each completed stage boundary, in execution
order. -/
def runFrom (oc : Oracle) :
    Nat → Node → Nat → ResearchState → Outcome × List ResearchState
  | 0, _, _, _ => (.fuelOut, [])
  | _ + 1, .terminal, _, s => (.done s, [])
  | fuel + 1, .planner, k, s =>
    let s' := plannerStage (oc.llm k) (oc.ts k) s
    let r := runFrom oc fuel .researcher (k + 1) s'
    (r.1, s' :: r.2)
  | fuel + 1, .researcher, k, s =>
    match researcherStage oc.tavilyConfigured (oc.llm k) (oc.search k)
        (oc.ts k) s with
    | none => (.raised, [])
    | some s' =>
      let r := runFrom oc fuel .analyzer (k + 1) s'
      (r.1, s' :: r.2)
  | fuel + 1, .analyzer, k, s =>
    match analyzerStage (oc.llm k) (oc.ts k) s with
    | none => (.raised, [])
    | some s' =>
      if route_after_analysis s' = "more_research" then
        let r := runFrom oc fuel .researcher (k + 1) s'
        (r.1, s' :: r.2)
      else if route_after_analysis s' = "write" then
        let r := runFrom oc fuel .writer (k + 1) s'
        (r.1, s' :: r.2)
      else if route_after_analysis s' = "fact_check" then
        let r := runFrom oc fuel .factChecker (k + 1) s'
        (r.1, s' :: r.2)
      else (.raised, [s'])
  | fuel + 1, .factChecker, k, s =>
    let s' := factCheckerStage (oc.llm k) (oc.ts k) s
    let r := runFrom oc fuel .writer (k + 1) s'
    (r.1, s' :: r.2)
  | fuel + 1, .writer, k, s =>
    let s' := writerStage (oc.llm k) (oc.ts k) s
    let r := runFrom oc fuel .visualizer (k + 1) s'
    (r.1, s' :: r.2)
  | fuel + 1, .visualizer, k, s =>
    let s' := visualizerStage (oc.llm k) (oc.ts k) s
    let r := runFrom oc fuel .terminal (k + 1) s'
    (r.1, s' :: r.2)

/-- research() (lines 507-545): build the initial state and drive the
graph from the planner entry point. -/
def research (oc : Oracle) (query : String) (fuel : Nat) :
    Outcome × List ResearchState :=
  runFrom oc fuel .planner 0 (initState query)

/-- The stage-boundary states of a run: the freshly built initial state
followed by the state after each completed stage. -/
def runBoundaries (oc : Oracle) (query : String) (fuel : Nat) :
    List ResearchState :=
  initState query :: (research oc query fuel).2

/-- The agent tag of a Stage Execution Record. -/
def agentOf (m : PyDict) : String :=
  match List.lookup "agent" m with
  | some (.str a) => a
  | _ => ""

/-- How many Stage Execution Records carry a given agent tag. -/
def agentCount (a : String) (msgs : List PyDict) : Nat :=
  (msgs.filter (fun m => agentOf m == a)).length

/-- The iteration counter of a completed run (0 otherwise). -/
def finalIteration : Outcome → Nat
  | .done s => s.iteration
  | _ => 0

/-- The report of a completed run (empty otherwise). -/
def finalReport : Outcome → String
  | .done s => s.report
  | _ => ""

/-- The confidence field of a completed run (null otherwise). -/
def finalConfidence : Outcome → PyVal
  | .done s => s.confidence_score
  | _ => .null

/-- How many records of the audit log of a completed run carry a tag. -/
def finalAgentCount (a : String) : Outcome → Nat
  | .done s => agentCount a s.messages
  | _ => 0

/-- Whether a dictionary has a key, as Python `k in d`. -/
def hasKey (k : String) (d : PyDict) : Bool :=
  (List.lookup k d).isSome

theorem agentCount_append_one (a : String) (xs : List PyDict) (m : PyDict) :
    agentCount a (xs ++ [m]) =
      agentCount a xs + (if agentOf m == a then 1 else 0) := by
  simp only [agentCount, List.filter_append]
  cases h : agentOf m == a <;> simp [h]

theorem researcherStage_some {cfg : Bool} {reply : LlmReply}
    {sf : Nat → String → Option (List PyDict)} {ts : String}
    {s s' : ResearchState}
    (h : researcherStage cfg reply sf ts s = some s') :
    s'.iteration = s.iteration + 1 ∧ s'.report = s.report ∧
    s'.fact_checks = s.fact_checks ∧
    s'.confidence_score = s.confidence_score ∧
    s'.query = s.query ∧
    (∃ rs, s'.search_results = s.search_results ++ rs) ∧
    (∃ m, s'.messages = s.messages ++ [m] ∧ agentOf m = "researcher") := by
  unfold researcherStage at h
  cases hq : asQueryList (extractQueries s.query reply.parsed) with
  | none => rw [hq] at h; exact absurd h (by simp)
  | some qs =>
    rw [hq] at h
    simp only [Option.some.injEq] at h
    subst h
    refine ⟨rfl, rfl, rfl, rfl, rfl, ⟨_, rfl⟩, ⟨_, rfl, ?_⟩⟩
    simp [agentOf, List.lookup]

theorem analyzerStage_some {reply : LlmReply} {ts : String}
    {s s' : ResearchState}
    (h : analyzerStage reply ts s = some s') :
    s'.iteration = s.iteration ∧ s'.report = s.report ∧
    s'.fact_checks = s.fact_checks ∧
    s'.query = s.query ∧
    s'.search_results = s.search_results ∧
    s'.confidence_score = (analyzerParse reply.parsed).1 ∧
    (∃ m, s'.messages = s.messages ++ [m] ∧ agentOf m = "analyzer") ∧
    (s'.next_agent = "more_research" ∨ s'.next_agent = "write" ∨
      s'.next_agent = "fact_check") ∧
    (s'.next_agent = "more_research" → s.iteration < 3) := by
  simp only [analyzerStage] at h
  split at h
  · simp only [Option.some.injEq] at h
    subst h
    rename_i hcond
    refine ⟨rfl, rfl, rfl, rfl, rfl, rfl, ⟨_, rfl, by simp [agentOf, List.lookup]⟩,
      Or.inl rfl, fun _ => hcond.2⟩
  · split at h
    · exact absurd h (by simp)
    · split at h
      · simp only [Option.some.injEq] at h
        subst h
        rename_i hcond _ _ hlt
        refine ⟨rfl, rfl, rfl, rfl, rfl, rfl, ⟨_, rfl, by simp [agentOf, List.lookup]⟩,
          Or.inl rfl, fun _ => hlt.2⟩
      · split at h
        · simp only [Option.some.injEq] at h
          subst h
          refine ⟨rfl, rfl, rfl, rfl, rfl, rfl, ⟨_, rfl, by simp [agentOf, List.lookup]⟩,
            Or.inr (Or.inl rfl), fun hw => by simp at hw⟩
        · simp only [Option.some.injEq] at h
          subst h
          refine ⟨rfl, rfl, rfl, rfl, rfl, rfl, ⟨_, rfl, by simp [agentOf, List.lookup]⟩,
            Or.inr (Or.inr rfl), fun hw => by simp at hw⟩

theorem factCheckerStage_fields (reply : LlmReply) (ts : String)
    (s : ResearchState) :
    (factCheckerStage reply ts s).iteration = s.iteration ∧
    (factCheckerStage reply ts s).report = s.report ∧
    (factCheckerStage reply ts s).confidence_score = s.confidence_score ∧
    (factCheckerStage reply ts s).query = s.query ∧
    (factCheckerStage reply ts s).search_results = s.search_results ∧
    (factCheckerStage reply ts s).fact_checks =
      [[("checks", .str reply.content), ("timestamp", .str ts)]] ∧
    (∃ m, (factCheckerStage reply ts s).messages = s.messages ++ [m] ∧
      agentOf m = "fact_checker") := by
  refine ⟨rfl, rfl, rfl, rfl, rfl, rfl, ⟨_, rfl, ?_⟩⟩
  simp [agentOf, List.lookup]

theorem writerStage_fields (reply : LlmReply) (ts : String)
    (s : ResearchState) :
    (writerStage reply ts s).iteration = s.iteration ∧
    (writerStage reply ts s).report = reply.content ∧
    (writerStage reply ts s).confidence_score = s.confidence_score ∧
    (writerStage reply ts s).query = s.query ∧
    (writerStage reply ts s).search_results = s.search_results ∧
    (writerStage reply ts s).fact_checks = s.fact_checks ∧
    (∃ m, (writerStage reply ts s).messages = s.messages ++ [m] ∧
      agentOf m = "writer") := by
  refine ⟨rfl, rfl, rfl, rfl, rfl, rfl, ⟨_, rfl, ?_⟩⟩
  simp [agentOf, List.lookup]

theorem visualizerStage_fields (reply : LlmReply) (ts : String)
    (s : ResearchState) :
    (visualizerStage reply ts s).iteration = s.iteration ∧
    (visualizerStage reply ts s).report = s.report ∧
    (visualizerStage reply ts s).confidence_score = s.confidence_score ∧
    (visualizerStage reply ts s).query = s.query ∧
    (visualizerStage reply ts s).search_results = s.search_results ∧
    (visualizerStage reply ts s).fact_checks = s.fact_checks ∧
    (∃ m, (visualizerStage reply ts s).messages = s.messages ++ [m] ∧
      agentOf m = "visualizer") := by
  refine ⟨rfl, rfl, rfl, rfl, rfl, rfl, ⟨_, rfl, ?_⟩⟩
  simp [agentOf, List.lookup]

theorem plannerStage_fields (reply : LlmReply) (ts : String)
    (s : ResearchState) :
    (plannerStage reply ts s).iteration = 0 ∧
    (plannerStage reply ts s).report = s.report ∧
    (plannerStage reply ts s).confidence_score = s.confidence_score ∧
    (plannerStage reply ts s).query = s.query ∧
    (plannerStage reply ts s).search_results = s.search_results ∧
    (plannerStage reply ts s).fact_checks = s.fact_checks ∧
    (∃ m, (plannerStage reply ts s).messages = s.messages ++ [m] ∧
      agentOf m = "planner") := by
  refine ⟨rfl, rfl, rfl, rfl, rfl, rfl, ⟨_, rfl, ?_⟩⟩
  simp [agentOf, List.lookup]

theorem runFrom_inv (oc : Oracle) (P : ResearchState → Prop)
    (hr : ∀ k s s', P s →
      researcherStage oc.tavilyConfigured (oc.llm k) (oc.search k) (oc.ts k)
        s = some s' → P s')
    (ha : ∀ k s s', P s → analyzerStage (oc.llm k) (oc.ts k) s = some s' →
      P s')
    (hf : ∀ k s, P s → P (factCheckerStage (oc.llm k) (oc.ts k) s))
    (hw : ∀ k s, P s → P (writerStage (oc.llm k) (oc.ts k) s))
    (hv : ∀ k s, P s → P (visualizerStage (oc.llm k) (oc.ts k) s)) :
    ∀ fuel node k s, node ≠ Node.planner → P s →
      ∀ t ∈ (runFrom oc fuel node k s).2, P t := by
  intro fuel
  induction fuel with
  | zero => intro node k s hn hP t ht; simp [runFrom] at ht
  | succ n ih =>
    intro node k s hn hP t ht
    cases node with
    | planner => exact absurd rfl hn
    | terminal => simp [runFrom] at ht
    | researcher =>
      simp only [runFrom] at ht
      cases hres : researcherStage oc.tavilyConfigured (oc.llm k)
          (oc.search k) (oc.ts k) s with
      | none => rw [hres] at ht; simp at ht
      | some s' =>
        rw [hres] at ht
        simp only [List.mem_cons] at ht
        rcases ht with rfl | ht
        · exact hr k s t hP hres
        · exact ih .analyzer (k + 1) s' (by simp) (hr k s s' hP hres) t ht
    | analyzer =>
      simp only [runFrom] at ht
      cases hres : analyzerStage (oc.llm k) (oc.ts k) s with
      | none => rw [hres] at ht; simp at ht
      | some s' =>
        rw [hres] at ht
        have hP' := ha k s s' hP hres
        rcases (analyzerStage_some hres).2.2.2.2.2.2.2.1 with hro | hro | hro
        · simp only [route_after_analysis, hro] at ht
          simp only [List.mem_cons, if_pos] at ht
          rcases ht with rfl | ht
          · exact hP'
          · exact ih .researcher (k + 1) s' (by simp) hP' t ht
        · simp [route_after_analysis, hro, List.mem_cons] at ht
          rcases ht with rfl | ht
          · exact hP'
          · exact ih .writer (k + 1) s' (by simp) hP' t ht
        · simp [route_after_analysis, hro, List.mem_cons] at ht
          rcases ht with rfl | ht
          · exact hP'
          · exact ih .factChecker (k + 1) s' (by simp) hP' t ht
    | factChecker =>
      simp only [runFrom, List.mem_cons] at ht
      rcases ht with rfl | ht
      · exact hf k s hP
      · exact ih .writer (k + 1) _ (by simp) (hf k s hP) t ht
    | writer =>
      simp only [runFrom, List.mem_cons] at ht
      rcases ht with rfl | ht
      · exact hw k s hP
      · exact ih .visualizer (k + 1) _ (by simp) (hw k s hP) t ht
    | visualizer =>
      simp only [runFrom, List.mem_cons] at ht
      rcases ht with rfl | ht
      · exact hv k s hP
      · exact ih .terminal (k + 1) _ (by simp) (hv k s hP) t ht

theorem runFrom_chain (oc : Oracle)
    (R : ResearchState → ResearchState → Prop)
    (hr : ∀ k s s',
      researcherStage oc.tavilyConfigured (oc.llm k) (oc.search k) (oc.ts k)
        s = some s' → R s s')
    (ha : ∀ k s s', analyzerStage (oc.llm k) (oc.ts k) s = some s' → R s s')
    (hf : ∀ k s, R s (factCheckerStage (oc.llm k) (oc.ts k) s))
    (hw : ∀ k s, R s (writerStage (oc.llm k) (oc.ts k) s))
    (hv : ∀ k s, R s (visualizerStage (oc.llm k) (oc.ts k) s)) :
    ∀ fuel node k s, node ≠ Node.planner →
      List.Chain' R (s :: (runFrom oc fuel node k s).2) := by
  intro fuel
  induction fuel with
  | zero => intro node k s hn; simp [runFrom]
  | succ n ih =>
    intro node k s hn
    cases node with
    | planner => exact absurd rfl hn
    | terminal => simp [runFrom]
    | researcher =>
      simp only [runFrom]
      cases hres : researcherStage oc.tavilyConfigured (oc.llm k)
          (oc.search k) (oc.ts k) s with
      | none => simp
      | some s' =>
        exact List.chain'_cons.2 ⟨hr k s s' hres, ih .analyzer (k + 1) s' (by simp)⟩
    | analyzer =>
      simp only [runFrom]
      cases hres : analyzerStage (oc.llm k) (oc.ts k) s with
      | none => simp
      | some s' =>
        have hR := ha k s s' hres
        rcases (analyzerStage_some hres).2.2.2.2.2.2.2.1 with hro | hro | hro
        · simp only [route_after_analysis, hro, if_pos]
          exact List.chain'_cons.2 ⟨hR, ih .researcher (k + 1) s' (by simp)⟩
        · simp [route_after_analysis, hro]
          exact ⟨hR, ih .writer (k + 1) s' (by simp)⟩
        · simp [route_after_analysis, hro]
          exact ⟨hR, ih .factChecker (k + 1) s' (by simp)⟩
    | factChecker =>
      simp only [runFrom]
      exact List.chain'_cons.2 ⟨hf k s, ih .writer (k + 1) _ (by simp)⟩
    | writer =>
      simp only [runFrom]
      exact List.chain'_cons.2 ⟨hw k s, ih .visualizer (k + 1) _ (by simp)⟩
    | visualizer =>
      simp only [runFrom]
      exact List.chain'_cons.2 ⟨hv k s, ih .terminal (k + 1) _ (by simp)⟩

theorem runFrom_done_mem (oc : Oracle) :
    ∀ fuel node k s t, node ≠ Node.terminal →
      (runFrom oc fuel node k s).1 = .done t →
      t ∈ (runFrom oc fuel node k s).2 := by
  intro fuel
  induction fuel with
  | zero => intro node k s t hn h; simp [runFrom] at h
  | succ n ih =>
    intro node k s t hn h
    cases node with
    | terminal => exact absurd rfl hn
    | planner =>
      simp only [runFrom] at h ⊢
      exact List.mem_cons_of_mem _ (ih .researcher (k + 1) _ t (by simp) h)
    | researcher =>
      simp only [runFrom] at h ⊢
      cases hres : researcherStage oc.tavilyConfigured (oc.llm k)
          (oc.search k) (oc.ts k) s
      all_goals simp only [hres] at h ⊢
      · simp at h
      · exact List.mem_cons_of_mem _ (ih .analyzer (k + 1) _ t (by simp) h)
    | analyzer =>
      simp only [runFrom] at h ⊢
      cases hres : analyzerStage (oc.llm k) (oc.ts k) s
      all_goals simp only [hres] at h ⊢
      · simp at h
      · rename_i s'
        rcases (analyzerStage_some hres).2.2.2.2.2.2.2.1 with hro | hro | hro
        · simp only [route_after_analysis, hro, if_pos] at h ⊢
          exact List.mem_cons_of_mem _ (ih .researcher (k + 1) s' t (by simp) h)
        · simp only [route_after_analysis, hro] at h ⊢
          rw [if_neg (by simp), if_pos trivial] at h ⊢
          dsimp only at h ⊢
          exact List.mem_cons_of_mem _ (ih .writer (k + 1) s' t (by simp) h)
        · simp only [route_after_analysis, hro] at h ⊢
          rw [if_neg (by simp), if_neg (by simp), if_pos trivial] at h ⊢
          dsimp only at h ⊢
          exact List.mem_cons_of_mem _ (ih .factChecker (k + 1) s' t (by simp) h)
    | factChecker =>
      simp only [runFrom] at h ⊢
      exact List.mem_cons_of_mem _ (ih .writer (k + 1) _ t (by simp) h)
    | writer =>
      simp only [runFrom] at h ⊢
      exact List.mem_cons_of_mem _ (ih .visualizer (k + 1) _ t (by simp) h)
    | visualizer =>
      simp only [runFrom] at h ⊢
      cases n with
      | zero => simp [runFrom] at h
      | succ m =>
        simp only [runFrom] at h ⊢
        cases h
        simp

theorem runFrom_planner_step (oc : Oracle) (fuel k : Nat)
    (s : ResearchState) :
    runFrom oc (fuel + 1) .planner k s =
      ((runFrom oc fuel .researcher (k + 1)
          (plannerStage (oc.llm k) (oc.ts k) s)).1,
        plannerStage (oc.llm k) (oc.ts k) s ::
          (runFrom oc fuel .researcher (k + 1)
            (plannerStage (oc.llm k) (oc.ts k) s)).2) := rfl

theorem runFrom_researcher_step (oc : Oracle) (fuel k : Nat)
    (s : ResearchState) :
    runFrom oc (fuel + 1) .researcher k s =
      match researcherStage oc.tavilyConfigured (oc.llm k) (oc.search k)
          (oc.ts k) s with
      | none => (.raised, [])
      | some s' =>
        ((runFrom oc fuel .analyzer (k + 1) s').1,
          s' :: (runFrom oc fuel .analyzer (k + 1) s').2) := rfl

theorem runFrom_analyzer_step (oc : Oracle) (fuel k : Nat)
    (s : ResearchState) :
    runFrom oc (fuel + 1) .analyzer k s =
      match analyzerStage (oc.llm k) (oc.ts k) s with
      | none => (.raised, [])
      | some s' =>
        if route_after_analysis s' = "more_research" then
          ((runFrom oc fuel .researcher (k + 1) s').1,
            s' :: (runFrom oc fuel .researcher (k + 1) s').2)
        else if route_after_analysis s' = "write" then
          ((runFrom oc fuel .writer (k + 1) s').1,
            s' :: (runFrom oc fuel .writer (k + 1) s').2)
        else if route_after_analysis s' = "fact_check" then
          ((runFrom oc fuel .factChecker (k + 1) s').1,
            s' :: (runFrom oc fuel .factChecker (k + 1) s').2)
        else (.raised, [s']) := rfl

theorem runFrom_factChecker_step (oc : Oracle) (fuel k : Nat)
    (s : ResearchState) :
    runFrom oc (fuel + 1) .factChecker k s =
      ((runFrom oc fuel .writer (k + 1)
          (factCheckerStage (oc.llm k) (oc.ts k) s)).1,
        factCheckerStage (oc.llm k) (oc.ts k) s ::
          (runFrom oc fuel .writer (k + 1)
            (factCheckerStage (oc.llm k) (oc.ts k) s)).2) := rfl

theorem runFrom_writer_step (oc : Oracle) (fuel k : Nat)
    (s : ResearchState) :
    runFrom oc (fuel + 1) .writer k s =
      ((runFrom oc fuel .visualizer (k + 1)
          (writerStage (oc.llm k) (oc.ts k) s)).1,
        writerStage (oc.llm k) (oc.ts k) s ::
          (runFrom oc fuel .visualizer (k + 1)
            (writerStage (oc.llm k) (oc.ts k) s)).2) := rfl

theorem runFrom_visualizer_step (oc : Oracle) (fuel k : Nat)
    (s : ResearchState) :
    runFrom oc (fuel + 1) .visualizer k s =
      ((runFrom oc fuel .terminal (k + 1)
          (visualizerStage (oc.llm k) (oc.ts k) s)).1,
        visualizerStage (oc.llm k) (oc.ts k) s ::
          (runFrom oc fuel .terminal (k + 1)
            (visualizerStage (oc.llm k) (oc.ts k) s)).2) := rfl

theorem runFrom_terminal_step (oc : Oracle) (fuel k : Nat)
    (s : ResearchState) :
    runFrom oc (fuel + 1) .terminal k s = (.done s, []) := rfl

theorem runFrom_visualizer_done (oc : Oracle) (c k : Nat)
    (s : ResearchState) :
    (runFrom oc (c + 2) .visualizer k s).1 =
      .done (visualizerStage (oc.llm k) (oc.ts k) s) := by
  show (runFrom oc (c + 1 + 1) .visualizer k s).1 = _
  rw [runFrom_visualizer_step, runFrom_terminal_step]

theorem runFrom_writer_done (oc : Oracle) (c k : Nat) (s : ResearchState) :
    (runFrom oc (c + 3) .writer k s).1 =
      .done (visualizerStage (oc.llm (k + 1)) (oc.ts (k + 1))
        (writerStage (oc.llm k) (oc.ts k) s)) := by
  show (runFrom oc (c + 2 + 1) .writer k s).1 = _
  rw [runFrom_writer_step]
  exact runFrom_visualizer_done oc c (k + 1) _

theorem runFrom_factChecker_done (oc : Oracle) (c k : Nat)
    (s : ResearchState) :
    (runFrom oc (c + 4) .factChecker k s).1 =
      .done (visualizerStage (oc.llm (k + 2)) (oc.ts (k + 2))
        (writerStage (oc.llm (k + 1)) (oc.ts (k + 1))
          (factCheckerStage (oc.llm k) (oc.ts k) s))) := by
  show (runFrom oc (c + 3 + 1) .factChecker k s).1 = _
  rw [runFrom_factChecker_step]
  exact runFrom_writer_done oc c (k + 1) _

theorem finalIteration_vw (oc : Oracle) (k1 k2 : Nat) (s : ResearchState) :
    (visualizerStage (oc.llm k1) (oc.ts k1)
      (writerStage (oc.llm k2) (oc.ts k2) s)).iteration = s.iteration := rfl

theorem runFrom_analyzer_total (oc : Oracle) :
    ∀ m c k s, 3 ≤ s.iteration + m → s.iteration ≤ 3 →
      (runFrom oc (2 * m + 5 + c) .analyzer k s).1 ≠ .fuelOut ∧
      finalIteration (runFrom oc (2 * m + 5 + c) .analyzer k s).1 ≤ 3 := by
  intro m
  induction m with
  | zero =>
    intro c k s h3 hle
    have hit : s.iteration = 3 := by omega
    have hfuel : 2 * 0 + 5 + c = (c + 4) + 1 := by omega
    rw [hfuel, runFrom_analyzer_step]
    cases hres : analyzerStage (oc.llm k) (oc.ts k) s with
    | none => exact ⟨by simp, by simp [finalIteration]⟩
    | some s' =>
      dsimp only
      obtain ⟨hi, _, _, _, _, _, _, hdisj, himp⟩ := analyzerStage_some hres
      rcases hdisj with hro | hro | hro
      · exact absurd (himp hro) (by omega)
      · rw [if_neg (by simp [route_after_analysis, hro]),
          if_pos (show route_after_analysis s' = "write" by
            simp [route_after_analysis, hro])]
        dsimp only
        have hc4 : c + 4 = (c + 1) + 3 := by omega
        rw [hc4, runFrom_writer_done]
        refine ⟨by simp, ?_⟩
        simp only [finalIteration, finalIteration_vw]
        omega
      · rw [if_neg (by simp [route_after_analysis, hro]),
          if_neg (by simp [route_after_analysis, hro]),
          if_pos (show route_after_analysis s' = "fact_check" by
            simp [route_after_analysis, hro])]
        dsimp only
        rw [runFrom_factChecker_done]
        refine ⟨by simp, ?_⟩
        simp only [finalIteration, finalIteration_vw]
        have hfc : (factCheckerStage (oc.llm (k + 1)) (oc.ts (k + 1))
            s').iteration = s'.iteration := rfl
        omega
  | succ m ih =>
    intro c k s h3 hle
    have hfuel : 2 * (m + 1) + 5 + c = (2 * m + 6 + c) + 1 := by omega
    rw [hfuel, runFrom_analyzer_step]
    cases hres : analyzerStage (oc.llm k) (oc.ts k) s with
    | none => exact ⟨by simp, by simp [finalIteration]⟩
    | some s' =>
      dsimp only
      obtain ⟨hi, _, _, _, _, _, _, hdisj, himp⟩ := analyzerStage_some hres
      rcases hdisj with hro | hro | hro
      · rw [if_pos (show route_after_analysis s' = "more_research" by
          simp [route_after_analysis, hro])]
        dsimp only
        have hlt : s.iteration < 3 := himp hro
        have hf2 : 2 * m + 6 + c = (2 * m + 5 + c) + 1 := by omega
        rw [hf2, runFrom_researcher_step]
        cases hres2 : researcherStage oc.tavilyConfigured (oc.llm (k + 1))
            (oc.search (k + 1)) (oc.ts (k + 1)) s' with
        | none => exact ⟨by simp, by simp [finalIteration]⟩
        | some u2 =>
          dsimp only
          obtain ⟨hi2, _⟩ := researcherStage_some hres2
          exact ih c (k + 2) u2 (by omega) (by omega)
      · rw [if_neg (by simp [route_after_analysis, hro]),
          if_pos (show route_after_analysis s' = "write" by
            simp [route_after_analysis, hro])]
        dsimp only
        have hc4 : 2 * m + 6 + c = (2 * m + 3 + c) + 3 := by omega
        rw [hc4, runFrom_writer_done]
        refine ⟨by simp, ?_⟩
        simp only [finalIteration, finalIteration_vw]
        omega
      · rw [if_neg (by simp [route_after_analysis, hro]),
          if_neg (by simp [route_after_analysis, hro]),
          if_pos (show route_after_analysis s' = "fact_check" by
            simp [route_after_analysis, hro])]
        dsimp only
        have hc4 : 2 * m + 6 + c = (2 * m + 2 + c) + 4 := by omega
        rw [hc4, runFrom_factChecker_done]
        refine ⟨by simp, ?_⟩
        simp only [finalIteration, finalIteration_vw]
        have hfc : (factCheckerStage (oc.llm (k + 1)) (oc.ts (k + 1))
            s').iteration = s'.iteration := rfl
        omega

theorem researcherCount_inv (oc : Oracle) :
    ∀ fuel node k s, node ≠ Node.planner →
      agentCount "researcher" s.messages = s.iteration →
      ∀ t ∈ (runFrom oc fuel node k s).2,
        agentCount "researcher" t.messages = t.iteration := by
  intro fuel node k s hn hP
  refine runFrom_inv oc
    (fun t => agentCount "researcher" t.messages = t.iteration)
    ?_ ?_ ?_ ?_ ?_ fuel node k s hn hP
  · intro k u u' hPu hres
    obtain ⟨hit, _, _, _, _, _, m, hm, ha⟩ := researcherStage_some hres
    rw [hm, agentCount_append_one, ha, hit]
    simp [hPu]
  · intro k u u' hPu hres
    obtain ⟨hit, _, _, _, _, _, ⟨m, hm, ha⟩, _⟩ := analyzerStage_some hres
    rw [hm, agentCount_append_one, ha, hit]
    simp [hPu]
  · intro k u hPu
    obtain ⟨hit, _, _, _, _, _, m, hm, ha⟩ :=
      factCheckerStage_fields (oc.llm k) (oc.ts k) u
    rw [hm, agentCount_append_one, ha, hit]
    simp [hPu]
  · intro k u hPu
    obtain ⟨hit, _, _, _, _, _, m, hm, ha⟩ :=
      writerStage_fields (oc.llm k) (oc.ts k) u
    rw [hm, agentCount_append_one, ha, hit]
    simp [hPu]
  · intro k u hPu
    obtain ⟨hit, _, _, _, _, _, m, hm, ha⟩ :=
      visualizerStage_fields (oc.llm k) (oc.ts k) u
    rw [hm, agentCount_append_one, ha, hit]
    simp [hPu]

/-- C2: every run executes the Search stage at most 3 times: Search
increments iteration by 1 (see researcherStage_some), the post-Analyze
routing never selects more_research once iteration has reached 3, and the
stage loop of the engine always terminates within a fixed stage budget
(11 stage executions), being forced forward through fact_check or write
and then summarize, regardless of confidence; a completed run reports at
most 3 iterations and at most 3 researcher-tagged records. -/
theorem c2_search_cap_terminates (oc : Oracle) (q : String) (fuel : Nat)
    (hfuel : 11 ≤ fuel) :
    (research oc q fuel).1 ≠ .fuelOut ∧
    finalIteration (research oc q fuel).1 ≤ 3 ∧
    finalAgentCount "researcher" (research oc q fuel).1 ≤ 3 ∧
    (∀ reply ts s s', 3 ≤ s.iteration → analyzerStage reply ts s = some s' →
      route_after_analysis s' ≠ "more_research") := by
  have hlast : ∀ (reply : LlmReply) (ts : String) (s s' : ResearchState),
      3 ≤ s.iteration → analyzerStage reply ts s = some s' →
      route_after_analysis s' ≠ "more_research" := by
    intro reply ts s s' h3 hs hro
    exact absurd ((analyzerStage_some hs).2.2.2.2.2.2.2.2 hro) (by omega)
  obtain ⟨d, rfl⟩ := Nat.exists_eq_add_of_le hfuel
  have h11 : 11 + d = ((9 + d) + 1) + 1 := by omega
  unfold research
  rw [h11, runFrom_planner_step]
  dsimp only
  rw [runFrom_researcher_step]
  cases hres2 : researcherStage oc.tavilyConfigured (oc.llm 1) (oc.search 1)
      (oc.ts 1) (plannerStage (oc.llm 0) (oc.ts 0) (initState q)) with
  | none =>
    exact ⟨by simp, by simp [finalIteration], by simp [finalAgentCount], hlast⟩
  | some s2 =>
    dsimp only
    have hit1 : (plannerStage (oc.llm 0) (oc.ts 0)
        (initState q)).iteration = 0 := rfl
    have hit2 : s2.iteration = 1 := by
      have := (researcherStage_some hres2).1
      omega
    have htot := runFrom_analyzer_total oc 2 d 2 s2 (by omega) (by omega)
    rw [show 2 * 2 + 5 + d = 9 + d from by omega] at htot
    refine ⟨htot.1, htot.2, ?_, hlast⟩
    have hP2 : agentCount "researcher" s2.messages = s2.iteration := by
      obtain ⟨_, _, _, _, _, _, m, hm, ha⟩ := researcherStage_some hres2
      rw [hm, agentCount_append_one, ha, hit2]
      have : agentCount "researcher" (plannerStage (oc.llm 0) (oc.ts 0)
          (initState q)).messages = 0 := by
        simp [plannerStage, initState, agentCount, agentOf, List.lookup]
      rw [this]
      simp
    cases houtcome : (runFrom oc (9 + d) .analyzer 2 s2).1 with
    | done t =>
      have hmem := runFrom_done_mem oc (9 + d) .analyzer 2 s2 t
        (by simp) houtcome
      have hPt := researcherCount_inv oc (9 + d) .analyzer 2 s2
        (by simp) hP2 t hmem
      have hiter := htot.2
      rw [houtcome] at hiter
      simp only [finalIteration] at hiter
      simp only [finalAgentCount, hPt]
      exact hiter
    | raised => simp [finalAgentCount]
    | fuelOut => simp [finalAgentCount]

/-- A concrete oracle used to instantiate hypothesis-bearing theorems: no
search backend, every generation reply is empty unparseable text. -/
def ocFail : Oracle :=
  { llm := fun _ => { content := "", parsed := none }
    tavilyConfigured := false
    search := fun _ _ _ => none
    ts := fun _ => "" }

/-- Witness for C2 at a concrete run. -/
theorem c2_witness : (research ocFail "q" 11).1 ≠ .fuelOut :=
  (c2_search_cap_terminates ocFail "q" 11 (by norm_num)).1

/-- C1: after every Analyze execution, the next stage (read by the router
from the state Analyze produced) follows the exact precedence: loop to
Search when needs_more_research is truthy and iteration < 3; else loop
when confidence < 70 and iteration < 3; else write when confidence >= 80;
else fact_check. -/
theorem c1_route_after_analysis_precedence (reply : LlmReply) (ts : String)
    (s : ResearchState) (c : Rat)
    (hc : asNum (analyzerParse reply.parsed).1 = some c) :
    (analyzerStage reply ts s).map route_after_analysis =
      some (if truthy (analyzerParse reply.parsed).2 = true ∧ s.iteration < 3
        then "more_research"
        else if c < 70 ∧ s.iteration < 3 then "more_research"
        else if 80 ≤ c then "write"
        else "fact_check") := by
  simp only [analyzerStage, hc]
  split_ifs with hA hB hC <;> rfl

/-- Witness for C1: needs_more_research true at iteration 1 routes to
more_research. -/
theorem c1_witness :
    (analyzerStage
      { content := "a",
        parsed := some (.obj [("needs_more_research", PyVal.bool true),
          ("confidence", PyVal.num 60)]) }
      "t" { initState "q" with iteration := 1 }).map route_after_analysis =
      some "more_research" := by
  have h := c1_route_after_analysis_precedence
    { content := "a",
      parsed := some (.obj [("needs_more_research", PyVal.bool true),
        ("confidence", PyVal.num 60)]) }
    "t" { initState "q" with iteration := 1 } 60 rfl
  rw [h]
  rfl

/-- C3 counterexample: a reply whose structured block decodes to an
object with an empty search_queries list yields zero extracted queries,
and Search proceeds (does not abort) with zero searches and zero new
results — refuting "the query extraction yields at least one search
query" for every reply. -/
theorem c3_counterexample :
    asQueryList (extractQueries "orig"
      (some (.obj [("search_queries", PyVal.arr [])]))) = some [] ∧
    (researcherStage false
      { content := "r", parsed := some (.obj [("search_queries", PyVal.arr [])]) }
      (fun _ _ => none) "t" (initState "orig")).map
        (fun s => s.search_results.length) = some 0 :=
  ⟨rfl, rfl⟩

/-- C3 amended: a decode failure, a decoded value that is not an object,
or a decoded object whose search_queries value has no len or whose
reasoning value is not sliceable (the progress prints inside the try
clause raise and the except clause fires), falls back to the single
original query; otherwise the search_queries field is used verbatim,
defaulting to the empty list when absent — so a parseable object reply
with an absent or empty search_queries list and an absent or sliceable
reasoning value yields zero queries, and Search then proceeds with zero
searches rather than aborting.  The extraction never raises and Search
completes on every extracted string list. -/
theorem c3_query_extraction_fallback (q : String) :
    extractQueries q none = .arr [.str q] ∧
    (∀ v, (∀ fields, v ≠ .obj fields) →
      extractQueries q (some v) = .arr [.str q]) ∧
    (∀ fields, List.lookup "search_queries" fields = none →
      List.lookup "reasoning" fields = none →
      extractQueries q (some (.obj fields)) = .arr []) ∧
    (∀ fields v, List.lookup "search_queries" fields = some v →
      hasLen v = true →
      pySliceable ((List.lookup "reasoning" fields).getD (.str "")) = true →
      extractQueries q (some (.obj fields)) = v) ∧
    (∀ fields,
      hasLen ((List.lookup "search_queries" fields).getD (.arr [])) = false ∨
      pySliceable ((List.lookup "reasoning" fields).getD (.str "")) = false →
      extractQueries q (some (.obj fields)) = .arr [.str q]) ∧
    extractQueries q (some (.obj [("search_queries",
      PyVal.arr [.str "a", .str "b"])])) = .arr [.str "a", .str "b"] ∧
    extractQueries q (some (.obj [("search_queries", PyVal.arr []),
      ("reasoning", PyVal.num 5)])) = .arr [.str q] ∧
    (∀ cfg reply sf ts s qs,
      asQueryList (extractQueries s.query reply.parsed) = some qs →
      ∃ s', researcherStage cfg reply sf ts s = some s') := by
  refine ⟨rfl, ?_, ?_, ?_, ?_, rfl, rfl, ?_⟩
  · intro v hv
    cases v with
    | obj fields => exact absurd rfl (hv fields)
    | null => rfl
    | bool _ => rfl
    | num _ => rfl
    | str _ => rfl
    | arr _ => rfl
  · intro fields h1 h2
    simp [extractQueries, h1, h2, hasLen, pySliceable]
  · intro fields v h hl hs
    simp [extractQueries, h, hl, hs]
  · intro fields hor
    rcases hor with h | h <;> simp [extractQueries, h]
  · intro cfg reply sf ts s qs h
    exact ⟨_, by unfold researcherStage; rw [h]⟩

/-- Witness for C3 amended: an object with neither a search_queries nor
a reasoning field extracts the empty query list. -/
theorem c3_witness :
    extractQueries "orig" (some (.obj [])) = .arr [] :=
  (c3_query_extraction_fallback "orig").2.2.1 [] rfl rfl

/-- C4 counterexample: a parseable reply without a confidence field gets
the default 70, not the claimed 75. -/
theorem c4_counterexample :
    (analyzerParse (some (.obj [("needs_more_research",
      PyVal.bool false)]))).1 = .num 70 ∧
    (analyzerParse (some (.obj [("needs_more_research",
      PyVal.bool false)]))).1 ≠ .num 75 := by
  refine ⟨rfl, ?_⟩
  intro h
  rw [show (analyzerParse (some (.obj [("needs_more_research",
    PyVal.bool false)]))).1 = PyVal.num 70 from rfl] at h
  injection h with h70
  norm_num at h70

/-- C4 amended: the Analyze extraction is a total function (never
raises); a decode failure or a non-object value degrades to confidence 75
and needs_more_research false; within a decoded object, an absent
confidence field defaults to 70 (not 75), an absent needs_more_research
field defaults to false, and present fields are taken verbatim. -/
theorem c4_analyzer_parse_defaults :
    analyzerParse none = (.num 75, .bool false) ∧
    (∀ v, (∀ fields, v ≠ .obj fields) →
      analyzerParse (some v) = (.num 75, .bool false)) ∧
    (∀ fields, List.lookup "confidence" fields = none →
      (analyzerParse (some (.obj fields))).1 = .num 70) ∧
    (∀ fields, List.lookup "needs_more_research" fields = none →
      (analyzerParse (some (.obj fields))).2 = .bool false) ∧
    (∀ fields v, List.lookup "confidence" fields = some v →
      (analyzerParse (some (.obj fields))).1 = v) ∧
    (∀ fields v, List.lookup "needs_more_research" fields = some v →
      (analyzerParse (some (.obj fields))).2 = v) := by
  refine ⟨rfl, ?_, ?_, ?_, ?_, ?_⟩
  · intro v hv
    cases v with
    | obj fields => exact absurd rfl (hv fields)
    | null => rfl
    | bool _ => rfl
    | num _ => rfl
    | str _ => rfl
    | arr _ => rfl
  · intro fields h
    simp [analyzerParse, h]
  · intro fields h
    simp [analyzerParse, h]
  · intro fields v h
    simp [analyzerParse, h]
  · intro fields v h
    simp [analyzerParse, h]

/-- Witness for C4 amended: the empty object gets defaults (70, false). -/
theorem c4_witness :
    (analyzerParse (some (.obj []))).1 = .num 70 :=
  (c4_analyzer_parse_defaults).2.2.1 [] rfl

/-- C6: at every stage boundary of every run, iteration equals the number
of researcher-tagged Stage Execution Records in messages and never
decreases, and each Search execution increments iteration by exactly 1
regardless of the extracted queries or obtained results. -/
theorem c6_iteration_counts (oc : Oracle) (q : String) (fuel : Nat) :
    (∀ t ∈ initState q :: (research oc q fuel).2,
      agentCount "researcher" t.messages = t.iteration) ∧
    List.Chain' (fun a b => a.iteration ≤ b.iteration)
      (initState q :: (research oc q fuel).2) ∧
    (∀ cfg reply sf ts s s', researcherStage cfg reply sf ts s = some s' →
      s'.iteration = s.iteration + 1) := by
  have hP1 : agentCount "researcher" (plannerStage (oc.llm 0) (oc.ts 0)
      (initState q)).messages = (plannerStage (oc.llm 0) (oc.ts 0)
      (initState q)).iteration := by
    simp [plannerStage, initState, agentCount, agentOf, List.lookup]
  refine ⟨?_, ?_, fun cfg reply sf ts s s' h => (researcherStage_some h).1⟩
  · intro t ht
    rcases List.mem_cons.1 ht with rfl | ht
    · rfl
    · cases fuel with
      | zero => simp [research, runFrom] at ht
      | succ n =>
        unfold research at ht
        rw [runFrom_planner_step] at ht
        dsimp only at ht
        rcases List.mem_cons.1 ht with rfl | ht
        · exact hP1
        · exact researcherCount_inv oc n .researcher 1 _ (by simp) hP1 t ht
  · cases fuel with
    | zero => simp [research, runFrom]
    | succ n =>
      unfold research
      rw [runFrom_planner_step]
      dsimp only
      refine List.chain'_cons.2 ⟨le_refl 0, ?_⟩
      exact runFrom_chain oc (fun a b => a.iteration ≤ b.iteration)
        (fun k s s' h => by
          show s.iteration ≤ s'.iteration
          rw [(researcherStage_some h).1]; omega)
        (fun k s s' h => le_of_eq (analyzerStage_some h).1.symm)
        (fun k s => le_of_eq rfl) (fun k s => le_of_eq rfl)
        (fun k s => le_of_eq rfl)
        n .researcher 1 _ (by simp)

/-- Witness for C6 at a concrete boundary state. -/
theorem c6_witness :
    agentCount "researcher" (initState "q").messages =
      (initState "q").iteration :=
  (c6_iteration_counts ocFail "q" 11).1 (initState "q")
    (List.mem_cons_self _ _)

/-- The oracle of the C5 counterexample: the Analyze reply decodes to an
object reporting confidence 150. -/
def ocConf150 : Oracle :=
  { llm := fun k =>
      if k = 2 then
        { content := "a", parsed := some (.obj [("confidence", PyVal.num 150)]) }
      else { content := "", parsed := none }
    tavilyConfigured := false
    search := fun _ _ _ => none
    ts := fun _ => "" }

/-- C5 counterexample: a run whose Analyze reply reports confidence 150
completes with confidence_score 150, outside [0, 100] — refuting "after
every stage the confidence lies in [0, 100]". -/
theorem c5_counterexample :
    finalConfidence (research ocConf150 "q" 11).1 = .num 150 ∧
    ¬ ((150 : Rat) ≤ 100) := by
  refine ⟨rfl, by norm_num⟩

/-- C5 amended: confidence_score starts at 0, is written only by the
Analyze stage (every other stage preserves it), and Analyze stores the
extracted confidence verbatim with no clamping; consequently it stays in
[0, 100] only under the assumption that every decoded confidence value
(or applicable default) lies in [0, 100]. -/
theorem c5_confidence_lifecycle (oc : Oracle) (q : String) (fuel : Nat)
    (hconf : ∀ k, ∃ c : Rat,
      (analyzerParse (oc.llm k).parsed).1 = .num c ∧ 0 ≤ c ∧ c ≤ 100) :
    (initState q).confidence_score = .num 0 ∧
    (∀ reply ts s s', analyzerStage reply ts s = some s' →
      s'.confidence_score = (analyzerParse reply.parsed).1) ∧
    (∀ cfg reply sf ts s s', researcherStage cfg reply sf ts s = some s' →
      s'.confidence_score = s.confidence_score) ∧
    (∀ reply ts s,
      (plannerStage reply ts s).confidence_score = s.confidence_score ∧
      (factCheckerStage reply ts s).confidence_score = s.confidence_score ∧
      (writerStage reply ts s).confidence_score = s.confidence_score ∧
      (visualizerStage reply ts s).confidence_score = s.confidence_score) ∧
    (∀ t ∈ initState q :: (research oc q fuel).2,
      ∃ c : Rat, t.confidence_score = .num c ∧ 0 ≤ c ∧ c ≤ 100) := by
  refine ⟨rfl,
    fun reply ts s s' h => (analyzerStage_some h).2.2.2.2.2.1,
    fun cfg reply sf ts s s' h => (researcherStage_some h).2.2.2.1,
    fun reply ts s => ⟨rfl, rfl, rfl, rfl⟩, ?_⟩
  intro t ht
  rcases List.mem_cons.1 ht with rfl | ht
  · exact ⟨0, rfl, by norm_num, by norm_num⟩
  · cases fuel with
    | zero => simp [research, runFrom] at ht
    | succ n =>
      unfold research at ht
      rw [runFrom_planner_step] at ht
      dsimp only at ht
      have hP1 : ∃ c : Rat, (plannerStage (oc.llm 0) (oc.ts 0)
          (initState q)).confidence_score = .num c ∧ 0 ≤ c ∧ c ≤ 100 :=
        ⟨0, rfl, by norm_num, by norm_num⟩
      rcases List.mem_cons.1 ht with rfl | ht
      · exact hP1
      · refine runFrom_inv oc
          (fun t => ∃ c : Rat, t.confidence_score = .num c ∧ 0 ≤ c ∧ c ≤ 100)
          ?_ ?_ ?_ ?_ ?_ n .researcher 1 _ (by simp) hP1 t ht
        · intro k u u' hPu hres
          rw [(researcherStage_some hres).2.2.2.1]
          exact hPu
        · intro k u u' hPu hres
          rw [(analyzerStage_some hres).2.2.2.2.2.1]
          exact hconf k
        · intro k u hPu
          exact hPu
        · intro k u hPu
          exact hPu
        · intro k u hPu
          exact hPu

/-- Witness for C5 amended under an in-range oracle. -/
theorem c5_witness :
    (initState "q").confidence_score = .num 0 :=
  (c5_confidence_lifecycle ocFail "q" 11
    (fun _ => ⟨75, rfl, by norm_num, by norm_num⟩)).1

/-- C7 counterexample: a run whose Write reply is the empty string
completes with Write executed (one writer-tagged record) yet an empty
report — refuting "report is non-empty if and only if Write has
executed". -/
theorem c7_counterexample :
    finalAgentCount "writer" (research ocFail "q" 11).1 = 1 ∧
    finalReport (research ocFail "q" 11).1 = "" :=
  ⟨rfl, rfl⟩

/-- C7 amended: report is the empty string until Write runs (at every
boundary with no writer-tagged record the report is empty), Write sets it
to the generation reply text verbatim, and every other stage — including
the later Summarize stage — leaves it unchanged; hence after Write it is
non-empty exactly when the reply text is. -/
theorem c7_report_lifecycle (oc : Oracle) (q : String) (fuel : Nat) :
    (∀ reply ts s, (writerStage reply ts s).report = reply.content) ∧
    (∀ reply ts s, (plannerStage reply ts s).report = s.report ∧
      (factCheckerStage reply ts s).report = s.report ∧
      (visualizerStage reply ts s).report = s.report) ∧
    (∀ cfg reply sf ts s s', researcherStage cfg reply sf ts s = some s' →
      s'.report = s.report) ∧
    (∀ reply ts s s', analyzerStage reply ts s = some s' →
      s'.report = s.report) ∧
    (∀ t ∈ initState q :: (research oc q fuel).2,
      agentCount "writer" t.messages = 0 → t.report = "") := by
  refine ⟨fun reply ts s => rfl,
    fun reply ts s => ⟨rfl, rfl, rfl⟩,
    fun cfg reply sf ts s s' h => (researcherStage_some h).2.1,
    fun reply ts s s' h => (analyzerStage_some h).2.1, ?_⟩
  intro t ht
  rcases List.mem_cons.1 ht with rfl | ht
  · intro _
    rfl
  · cases fuel with
    | zero => simp [research, runFrom] at ht
    | succ n =>
      unfold research at ht
      rw [runFrom_planner_step] at ht
      dsimp only at ht
      have hP1 : agentCount "writer" (plannerStage (oc.llm 0) (oc.ts 0)
          (initState q)).messages = 0 → (plannerStage (oc.llm 0) (oc.ts 0)
          (initState q)).report = "" := fun _ => rfl
      rcases List.mem_cons.1 ht with rfl | ht
      · exact hP1
      · refine runFrom_inv oc
          (fun t => agentCount "writer" t.messages = 0 → t.report = "")
          ?_ ?_ ?_ ?_ ?_ n .researcher 1 _ (by simp) hP1 t ht
        · intro k u u' hPu hres hcnt
          obtain ⟨_, hrep, _, _, _, _, m, hm, ha⟩ := researcherStage_some hres
          rw [hm, agentCount_append_one, ha] at hcnt
          rw [hrep]
          exact hPu (by simpa using hcnt)
        · intro k u u' hPu hres hcnt
          obtain ⟨_, hrep, _, _, _, _, ⟨m, hm, ha⟩, _⟩ :=
            analyzerStage_some hres
          rw [hm, agentCount_append_one, ha] at hcnt
          rw [hrep]
          exact hPu (by simpa using hcnt)
        · intro k u hPu hcnt
          obtain ⟨_, hrep, _, _, _, _, m, hm, ha⟩ :=
            factCheckerStage_fields (oc.llm k) (oc.ts k) u
          rw [hm, agentCount_append_one, ha] at hcnt
          rw [hrep]
          exact hPu (by simpa using hcnt)
        · intro k u hPu hcnt
          obtain ⟨_, _, _, _, _, _, m, hm, ha⟩ :=
            writerStage_fields (oc.llm k) (oc.ts k) u
          rw [hm, agentCount_append_one, ha] at hcnt
          simp at hcnt
        · intro k u hPu hcnt
          obtain ⟨_, hrep, _, _, _, _, m, hm, ha⟩ :=
            visualizerStage_fields (oc.llm k) (oc.ts k) u
          rw [hm, agentCount_append_one, ha] at hcnt
          rw [hrep]
          exact hPu (by simpa using hcnt)

/-- Witness for C7 amended: the initial boundary has no writer record and
an empty report. -/
theorem c7_witness : (initState "q").report = "" :=
  (c7_report_lifecycle ocFail "q" 11).2.2.2.2 (initState "q")
    (List.mem_cons_self _ _) rfl

/-- A state that already carries one Fact-Check Result, for C8. -/
def sWithFC : ResearchState :=
  { initState "q" with
    fact_checks := [[("checks", PyVal.str "old"), ("timestamp", PyVal.str "t0")]] }

/-- C8 counterexample: executing FactCheck on a state that already holds
one Fact-Check Result leaves a single-element sequence — the prior entry
is discarded, not preserved, so the stage does not append. -/
theorem c8_counterexample :
    sWithFC.fact_checks.length = 1 ∧
    (factCheckerStage { content := "new", parsed := none } "t1"
      sWithFC).fact_checks.length = 1 ∧
    (factCheckerStage { content := "new", parsed := none } "t1"
      sWithFC).fact_checks ≠
      sWithFC.fact_checks ++
        [[("checks", PyVal.str "new"), ("timestamp", PyVal.str "t1")]] := by
  refine ⟨rfl, rfl, ?_⟩
  intro h
  have := congrArg List.length h
  simp [factCheckerStage, sWithFC, initState] at this

/-- C8 amended: each FactCheck execution overwrites fact_checks with
exactly the one new Fact-Check Result (discarding any prior entries) and
appends one fact_checker-tagged Stage Execution Record to messages;
since fact_checks starts empty and FactCheck runs at most once per run,
the overwrite coincides with an append in every reachable run state, and
fact_checks never holds more than one record at any boundary. -/
theorem c8_fact_checker_record (oc : Oracle) (q : String) (fuel : Nat)
    (reply : LlmReply) (ts : String) (s : ResearchState) :
    (factCheckerStage reply ts s).fact_checks =
      [[("checks", .str reply.content), ("timestamp", .str ts)]] ∧
    (s.fact_checks = [] → (factCheckerStage reply ts s).fact_checks =
      s.fact_checks ++
        [[("checks", .str reply.content), ("timestamp", .str ts)]]) ∧
    (∃ m, (factCheckerStage reply ts s).messages = s.messages ++ [m] ∧
      agentOf m = "fact_checker") ∧
    (∀ t ∈ initState q :: (research oc q fuel).2,
      t.fact_checks.length ≤ 1) := by
  refine ⟨rfl, fun h => by rw [h]; rfl,
    (factCheckerStage_fields reply ts s).2.2.2.2.2.2, ?_⟩
  intro t ht
  rcases List.mem_cons.1 ht with rfl | ht
  · simp [initState]
  · cases fuel with
    | zero => simp [research, runFrom] at ht
    | succ n =>
      unfold research at ht
      rw [runFrom_planner_step] at ht
      dsimp only at ht
      have hP1 : (plannerStage (oc.llm 0) (oc.ts 0)
          (initState q)).fact_checks.length ≤ 1 := by
        simp [plannerStage, initState]
      rcases List.mem_cons.1 ht with rfl | ht
      · exact hP1
      · refine runFrom_inv oc (fun t => t.fact_checks.length ≤ 1)
          ?_ ?_ ?_ ?_ ?_ n .researcher 1 _ (by simp) hP1 t ht
        · intro k u u' hPu hres
          rw [(researcherStage_some hres).2.2.1]
          exact hPu
        · intro k u u' hPu hres
          rw [(analyzerStage_some hres).2.2.1]
          exact hPu
        · intro k u hPu
          simp [factCheckerStage]
        · intro k u hPu
          exact hPu
        · intro k u hPu
          exact hPu

/-- Witness for C8 amended: on an empty prior sequence the overwrite
equals an append. -/
theorem c8_witness :
    (factCheckerStage { content := "new", parsed := none } "t"
      (initState "q")).fact_checks =
      (initState "q").fact_checks ++
        [[("checks", PyVal.str "new"), ("timestamp", PyVal.str "t")]] :=
  (c8_fact_checker_record ocFail "q" 11 { content := "new", parsed := none }
    "t" (initState "q")).2.1 rfl

/-- C9 counterexample: with the search backend unconfigured and four
extracted queries, the stage produces only 3 mock results — not one per
extracted query. -/
theorem c9_counterexample :
    asQueryList (extractQueries "q" (some (.obj [("search_queries",
      PyVal.arr [.str "a", .str "b", .str "c", .str "d"])]))) =
      some ["a", "b", "c", "d"] ∧
    (researcherStage false
      { content := "r", parsed := some (.obj [("search_queries",
        PyVal.arr [.str "a", .str "b", .str "c", .str "d"])]) }
      (fun _ _ => none) "t" (initState "q")).map
        (fun s => s.search_results.length) = some 3 :=
  ⟨rfl, rfl⟩

/-- C9 amended: with the search backend unconfigured, Search produces
exactly one deterministic mock Search Result per extracted query among
the first 3 (queries beyond the third are dropped), without consulting
the search service, each record carrying the placeholder URL
distinguished by the iteration number; for at most 3 extracted queries
this is exactly one record per query. -/
theorem c9_mock_search (reply : LlmReply)
    (sf : Nat → String → Option (List PyDict)) (ts : String)
    (s : ResearchState) (qs : List String)
    (hqs : asQueryList (extractQueries s.query reply.parsed) = some qs) :
    (researcherStage false reply sf ts s).map (fun t => t.search_results) =
      some (s.search_results ++ mockResults qs s.iteration ts) ∧
    (∀ sf', researcherStage false reply sf ts s =
      researcherStage false reply sf' ts s) ∧
    mockResults qs s.iteration ts =
      (qs.take 3).map (fun q => mockRecord q s.iteration ts) ∧
    (qs.length ≤ 3 →
      (mockResults qs s.iteration ts).length = qs.length) ∧
    (∀ q i t0, List.lookup "url" (mockRecord q i t0) =
      some (.str ("https://example.com/mock-" ++ toString i))) := by
  refine ⟨?_, ?_, rfl, ?_, fun q i t0 => rfl⟩
  · simp [researcherStage, hqs]
  · intro sf'
    simp [researcherStage, hqs]
  · intro h
    simp only [mockResults, List.length_map, List.length_take]
    omega

/-- Witness for C9 amended: for extracted queries x, y the stage appends
exactly the two mock records. -/
theorem c9_witness :
    (researcherStage false
      { content := "r", parsed := some (.obj [("search_queries",
        PyVal.arr [.str "x", .str "y"])]) }
      (fun _ _ => none) "t" (initState "q")).map
        (fun t => t.search_results) =
      some ((initState "q").search_results ++
        mockResults ["x", "y"] (initState "q").iteration "t") :=
  (c9_mock_search
    { content := "r", parsed := some (.obj [("search_queries",
      PyVal.arr [.str "x", .str "y"])]) }
    (fun _ _ => none) "t" (initState "q") ["x", "y"] rfl).1

/-- C10 counterexample: the mock Search Result has no published_date
field, yet it is what Search appends on the mock path — refuting "every
appended record contains all seven fields". -/
theorem c10_counterexample :
    hasKey "published_date" (mockRecord "x" 0 "t") = false ∧
    (researcherStage false
      { content := "r", parsed := some (.obj [("search_queries",
        PyVal.arr [.str "x"])]) }
      (fun _ _ => none) "t" (initState "q")).map
        (fun s => s.search_results.map (hasKey "published_date")) =
      some [false] :=
  ⟨rfl, rfl⟩

/-- C10 amended: every record appended on the real-search path carries
the seven fields query, title, url, content, score, published_date,
timestamp and is tagged with the sub-query that produced it; every record
appended on the mock path carries the six fields query, title, content,
url, score, timestamp — all of them except published_date — and is
likewise tagged with its query; every element of the batch of either path is
of the corresponding record shape. -/
theorem c10_search_result_fields :
    (∀ q r ts, (tavilyRecord q r ts).map Prod.fst =
      ["query", "title", "url", "content", "score", "published_date",
        "timestamp"] ∧
      List.lookup "query" (tavilyRecord q r ts) = some (.str q)) ∧
    (∀ q i ts, (mockRecord q i ts).map Prod.fst =
      ["query", "title", "content", "url", "score", "timestamp"] ∧
      List.lookup "query" (mockRecord q i ts) = some (.str q)) ∧
    (∀ sf qs ts rec, rec ∈ tavilyResults sf qs ts →
      ∃ q r, rec = tavilyRecord q r ts) ∧
    (∀ qs i ts rec, rec ∈ mockResults qs i ts →
      ∃ q, rec = mockRecord q i ts) := by
  refine ⟨fun q r ts => ⟨rfl, rfl⟩, fun q i ts => ⟨rfl, rfl⟩, ?_, ?_⟩
  · intro sf qs ts rec hrec
    simp only [tavilyResults, List.mem_flatMap] at hrec
    obtain ⟨p, hp, hrec⟩ := hrec
    cases hsf : sf p.1 p.2 with
    | none => rw [hsf] at hrec; simp at hrec
    | some rs =>
      rw [hsf] at hrec
      simp only [List.mem_map] at hrec
      obtain ⟨r, hr, hrec⟩ := hrec
      exact ⟨p.2, r, hrec.symm⟩
  · intro qs i ts rec hrec
    simp only [mockResults, List.mem_map] at hrec
    obtain ⟨q, hq, hrec⟩ := hrec
    exact ⟨q, hrec.symm⟩

/-- Witness for C10 amended at a concrete mock record. -/
theorem c10_witness :
    (mockRecord "x" 0 "t").map Prod.fst =
      ["query", "title", "content", "url", "score", "timestamp"] :=
  ((c10_search_result_fields).2.1 "x" 0 "t").1
